import Mathlib

/-!
Verification of the commit classification and timeline aggregation pipeline
of the CodebaseChronicle repository.

The definitions below are a shallow embedding of the TypeScript source:
  - the remote 7-category classifier and page pipeline from
    src/api/repositories/[id]/commits.ts,
  - the local 5-category classifier and git-log parser from
    src/api/repositories/analyze.ts,
  - the prefix-pattern classifier from src/client/src/lib/git-parser.ts,
  - the in-memory store from src/server/storage.ts,
  - the ingestion control flow of analyzeGitRepository.

Machine strings are Lean `String`s; JavaScript string operations
(`includes`, `toLowerCase`, `split`, `trim`, `parseInt`) are embedded as
executable functions on `List Char` below.
-/

namespace CodebaseChronicle

/-- `listStarts hay needle` is true when `needle` is an initial segment of
`hay` (helper for the JS `String.prototype.includes` embedding). -/
def listStarts : List Char → List Char → Bool
  | _, [] => true
  | [], _ :: _ => false
  | a :: as, b :: bs => a == b && listStarts as bs

/-- `listHasSub needle hay` is true when `needle` occurs contiguously in
`hay`. -/
def listHasSub (needle : List Char) : List Char → Bool
  | [] => listStarts [] needle
  | c :: cs => listStarts (c :: cs) needle || listHasSub needle cs

/-- JS `hay.includes(needle)`. -/
def includes (hay needle : String) : Bool :=
  listHasSub needle.data hay.data

/-- ASCII fragment of JS `String.prototype.toLowerCase` on one character:
A-Z map to a-z, all other characters are unchanged. -/
def lowerChar (c : Char) : Char :=
  if 65 ≤ c.toNat && c.toNat ≤ 90 then Char.ofNat (c.toNat + 32) else c

/-- JS `s.toLowerCase()` (ASCII fragment; the source only matches ASCII
keywords). -/
def lowerStr (s : String) : String :=
  String.mk (s.data.map lowerChar)

/-- Whitespace recognised by JS `\s` and `String.prototype.trim`
(ASCII fragment). -/
def jsIsSpace (c : Char) : Bool :=
  c == ' ' || c == '\t' || c == '\n' || c == '\x0d' || c == '\x0b' || c == '\x0c'

/-- Character class `[\s:]` used by the git-parser regexes. -/
def spaceOrColon (c : Char) : Bool :=
  jsIsSpace c || c == ':'

/-- JS `s.trim()` (ASCII-whitespace fragment). -/
def jsTrim (s : String) : String :=
  String.mk (((s.data.dropWhile jsIsSpace).reverse.dropWhile jsIsSpace).reverse)

/-- JS `s.split(sep)` for a one-character separator. -/
def splitOnChar (sep : Char) : List Char → List (List Char)
  | [] => [[]]
  | c :: cs =>
    let r := splitOnChar sep cs
    if c == sep then [] :: r
    else
      match r with
      | [] => [[c]]
      | h :: t => (c :: h) :: t

/-- JS `s.split(sep)` on strings, one-character separator. -/
def jsSplit (s : String) (sep : Char) : List String :=
  (splitOnChar sep s.data).map String.mk

/-- Leading decimal-digit value of a character list, `none` when the list
does not start with a digit (the `NaN` case of `parseInt`). -/
def digitsVal (cs : List Char) : Option Nat :=
  let ds := cs.takeWhile Char.isDigit
  if ds.isEmpty then none
  else some (ds.foldl (fun a c => a * 10 + (c.toNat - 48)) 0)

/-- JS `parseInt(s, 10)`: skip leading whitespace, read an optional sign and
then a maximal run of decimal digits; `none` models `NaN`. -/
def jsParseInt (s : String) : Option Int :=
  match s.data.dropWhile jsIsSpace with
  | '-' :: rest => (digitsVal rest).map (fun n => -(n : Int))
  | '+' :: rest => (digitsVal rest).map (fun n => (n : Int))
  | rest => (digitsVal rest).map (fun n => (n : Int))

/-- JS `parseInt(s, 10) || 0`: `NaN` collapses to `0` (and `0 || 0` is `0`). -/
def jsParseIntOr0 (s : String) : Int :=
  match jsParseInt s with
  | none => 0
  | some n => n

/-! ## Data model of changed files -/

/-- A changed-file entry as produced by the local git-log parser and consumed
by the classifiers: per-file name and added/deleted line counts. -/
structure FileChange where
  filename : String
  insertions : Int
  deletions : Int
deriving DecidableEq, Repr

/-! ## The remote 7-category classifier
(`categorizeCommit` in src/api/repositories/[id]/commits.ts, lines 342-397). -/

/-- The seven `type` values of the remote classifier. -/
inductive CommitType7 where
  | feature | bugfix | docs | refactor | test | config | initial
deriving DecidableEq, Repr

/-- Importance levels of the remote classifier. -/
inductive Importance where
  | high | medium | low
deriving DecidableEq, Repr

/-- The record returned by the remote `categorizeCommit`. -/
structure Classification where
  type : CommitType7
  category : String
  importance : Importance
  tags : List String
deriving DecidableEq, Repr

/-- A file entry of a GitHub commit detail response (the classifier only
reads `filename`). -/
structure GHFile where
  filename : String
  status : String
  additions : Nat
  deletions : Nat
  changes : Nat
deriving DecidableEq, Repr

/-- `categorizeCommit(message, files)` from
src/api/repositories/[id]/commits.ts: lowercase the message, join the
lowercased filenames with spaces, then run the if-chain
initial / feature / bugfix / docs / config / test / refactor / fallback. -/
def categorizeCommitR (message : String) (files : List GHFile) : Classification :=
  let lowerMessage := lowerStr message
  let fileNames := String.intercalate " " (files.map (fun f => lowerStr f.filename))
  if includes lowerMessage "initial commit" || includes lowerMessage "first commit" then
    ⟨.initial, "Project Setup", .high, ["setup"]⟩
  else if includes lowerMessage "feat" || includes lowerMessage "feature" ||
      includes lowerMessage "add" then
    ⟨.feature, "New Feature", .high,
      ["feature"] ++
        (if includes fileNames "api" || includes fileNames "endpoint" then ["api"] else []) ++
        (if includes fileNames "ui" || includes fileNames "component" then ["ui"] else [])⟩
  else if includes lowerMessage "fix" || includes lowerMessage "bug" ||
      includes lowerMessage "patch" then
    ⟨.bugfix, "Bug Fix", .medium, ["bugfix"]⟩
  else if includes lowerMessage "doc" || includes lowerMessage "readme" ||
      includes fileNames "readme" || includes fileNames ".md" then
    ⟨.docs, "Documentation", .low, ["documentation"]⟩
  else if includes lowerMessage "config" || includes fileNames "package.json" ||
      includes fileNames "config" then
    ⟨.config, "Configuration", .medium, ["configuration"]⟩
  else if includes lowerMessage "test" || includes fileNames "test" ||
      includes fileNames "spec" then
    ⟨.test, "Testing", .medium, ["testing"]⟩
  else if includes lowerMessage "refactor" || includes lowerMessage "cleanup" ||
      includes lowerMessage "improve" then
    ⟨.refactor, "Code Improvement", .medium, ["refactoring"]⟩
  else
    ⟨.feature, "Code Change", .low, ["general"]⟩

/-! ## The local 5-category classifier
(`categorizeCommit` in src/api/repositories/analyze.ts, lines 27-61;
identical in src/unnamed/part_003). It returns plain strings. -/

/-- `categorizeCommit(message, files)` from src/api/repositories/analyze.ts. -/
def categorizeCommitA (message : String) (files : List FileChange) : String :=
  let msg := lowerStr message
  let fileCount := files.length
  let hasArchFiles := files.any (fun f =>
    includes f.filename "docker" || includes f.filename "config" ||
    includes f.filename "migration" || includes f.filename "setup" ||
    includes f.filename "infra")
  if hasArchFiles || includes msg "migrate" || includes msg "architecture" ||
      includes msg "infrastructure" || includes msg "docker" || includes msg "deploy" ||
      decide (fileCount > 15) then
    "architecture"
  else if includes msg "feat" || includes msg "feature" || includes msg "add" ||
      includes msg "implement" || includes msg "launch" || includes msg "release" ||
      includes msg "new" || decide (fileCount > 8) then
    "major-feature"
  else if includes msg "fix" || includes msg "bug" || includes msg "error" ||
      includes msg "issue" || includes msg "patch" then
    "bug-fix"
  else if includes msg "refactor" || includes msg "optimize" || includes msg "improve" ||
      includes msg "clean" || includes msg "restructure" || includes msg "update" then
    "refactor"
  else
    "minor-feature"

/-! ## The client-side 5-category classifier
(`categorizeCommit` in src/client/src/lib/git-parser.ts, lines 20-86). -/

/-- The five `CommitType` values of git-parser.ts. -/
inductive CommitType5 where
  | majorFeature | minorFeature | bugFix | refactor | architecture
deriving DecidableEq, Repr

/-- Embedding of the regex test `msg.match(/^(kw1|kw2|...)[\s:]/)`: the
message starts with one of the keywords followed by a whitespace character
or a colon. -/
def startsKwOne (msg kw : String) : Bool :=
  listStarts msg.data kw.data &&
    (match msg.data.drop kw.data.length with
     | [] => false
     | c :: _ => spaceOrColon c)

/-- `msg.match(/^(kws...)[\s:]/)` over a keyword list. -/
def startsKw (msg : String) (kws : List String) : Bool :=
  kws.any (startsKwOne msg)

/-- `categorizeCommit(message, files)` from src/client/src/lib/git-parser.ts. -/
def categorizeCommitGP (message : String) (files : List FileChange) : CommitType5 :=
  let msg := lowerStr message
  let fileCount := files.length
  let hasArchFiles := files.any (fun f =>
    includes f.filename "docker" || includes f.filename "config" ||
    includes f.filename "migration" || includes f.filename "setup" ||
    includes f.filename "infra" || includes f.filename ".yml" ||
    includes f.filename ".yaml" || includes f.filename "package.json" ||
    includes f.filename "requirements.txt")
  if hasArchFiles || includes msg "migrate" || includes msg "architecture" ||
      includes msg "infrastructure" || includes msg "docker" || includes msg "deploy" ||
      includes msg "ci/cd" || includes msg "pipeline" || decide (fileCount > 15) then
    .architecture
  else if includes msg "feat:" || includes msg "feature:" || includes msg "add:" ||
      includes msg "implement" || includes msg "launch" || includes msg "release" ||
      includes msg "introduce" || startsKw msg ["add", "feat", "feature"] ||
      decide (fileCount > 8) then
    .majorFeature
  else if includes msg "fix:" || includes msg "bug:" || includes msg "hotfix" ||
      includes msg "patch" || includes msg "resolve" ||
      startsKw msg ["fix", "bug", "hotfix"] then
    .bugFix
  else if includes msg "refactor:" || includes msg "optimize" || includes msg "improve" ||
      includes msg "clean" || includes msg "restructure" || includes msg "update" ||
      includes msg "rename" || startsKw msg ["refactor", "optimize", "improve", "update"] then
    .refactor
  else
    .minorFeature

/-! ## The local git-log parser
(`analyzeGitRepository` in src/api/repositories/analyze.ts, lines 81-120):
splits stdout into lines; a line containing `|` starts a new commit header
(flushing the previous one), any other non-blank line is a tab-separated
numstat entry. -/

/-- Header fields of the commit currently being accumulated
(`currentCommit` in the source; `none` embeds the initial `{}`). -/
structure LogHeader where
  hash : String
  message : String
  author : String
  authorEmail : String
  date : String
deriving DecidableEq, Repr

/-- A parsed commit of the local path (`GitLogEntry` in the source). -/
structure GitLogEntry where
  hash : String
  message : String
  author : String
  authorEmail : String
  date : String
  files : List FileChange
  insertions : Int
  deletions : Int
deriving DecidableEq, Repr

/-- Loop state of the parser: commits pushed so far, the current header,
and the numstat entries collected since that header. -/
structure ParseState where
  commits : List GitLogEntry
  current : Option LogHeader
  files : List FileChange
deriving Repr

/-- One numstat field: `insertions === '-' ? 0 : parseInt(insertions, 10) || 0`. -/
def parseNumstatField (s : String) : Int :=
  if s = "-" then 0 else jsParseIntOr0 s

/-- `if (currentCommit.hash) commits.push({...currentCommit, files, insertions, deletions})`:
flush the current commit, with aggregate insertions/deletions reduced over
its files. The empty hash is falsy in JS, so such a header is dropped. -/
def flushCurrent (st : ParseState) : List GitLogEntry :=
  match st.current with
  | none => st.commits
  | some h =>
    if h.hash = "" then st.commits
    else
      st.commits ++ [{ hash := h.hash, message := h.message, author := h.author,
                       authorEmail := h.authorEmail, date := h.date,
                       files := st.files,
                       insertions := st.files.foldl (fun sum f => sum + f.insertions) 0,
                       deletions := st.files.foldl (fun sum f => sum + f.deletions) 0 }]

/-- The body of the `for (const line of lines)` loop. -/
def stepLine (st : ParseState) (line : String) : ParseState :=
  if includes line "|" then
    let parts := jsSplit line '|'
    { commits := flushCurrent st,
      current := some { hash := parts.getD 0 "", message := parts.getD 1 "",
                        author := parts.getD 2 "", authorEmail := parts.getD 3 "",
                        date := parts.getD 4 "" },
      files := [] }
  else if jsTrim line ≠ "" then
    let parts := jsSplit (jsTrim line) '\t'
    if parts.length = 3 then
      { st with files := st.files ++
          [{ filename := parts.getD 2 "",
             insertions := parseNumstatField (parts.getD 0 ""),
             deletions := parseNumstatField (parts.getD 1 "") }] }
    else st
  else st

/-- `analyzeGitRepository`'s parsing phase: fold the loop over
`stdout.split('\n')` and flush the final commit. -/
def parseGitLog (stdout : String) : List GitLogEntry :=
  let lines := jsSplit stdout '\n'
  flushCurrent (lines.foldl stepLine { commits := [], current := none, files := [] })

/-! ## The remote page pipeline
(handler in src/api/repositories/[id]/commits.ts, lines 513-645): hydrate
the first 10 commits of the upstream page with detail fetches, transform
every commit, aggregate insights, and report pagination. Detail-fetch
outcomes are embedded as a function from commit sha to `Option` detail
(`none` is a non-ok response or a thrown error, both of which the source
maps to the unmodified summary commit). -/

/-- `commit.commit.author` of the GitHub payload. -/
structure GHAuthorInfo where
  name : String
  email : String
  date : String
deriving DecidableEq, Repr

/-- `commit.author` of the GitHub payload (absent for commits whose author
has no GitHub account). -/
structure GHUser where
  login : String
  avatar_url : String
deriving DecidableEq, Repr

/-- `commit.stats` of the GitHub payload. -/
structure GHStats where
  additions : Nat
  deletions : Nat
  total : Nat
deriving DecidableEq, Repr

/-- `commit.commit` of the GitHub payload (the fields the handler reads). -/
structure GHCommitInner where
  message : String
  author : GHAuthorInfo
deriving DecidableEq, Repr

/-- A commit of the GitHub list response (`GitHubCommit` in the source):
`stats` and `files` are optional and absent in summary responses. -/
structure GHCommit where
  sha : String
  commit : GHCommitInner
  author : Option GHUser
  html_url : String
  stats : Option GHStats
  files : Option (List GHFile)
deriving DecidableEq, Repr

/-- The part of a per-commit detail response the handler uses
(`GitHubCommitDetail` in the source). -/
structure GHCommitDetail where
  stats : GHStats
  files : List GHFile
deriving DecidableEq, Repr

/-- One arm of `detailPromises` (lines 515-530): on a successful detail
fetch return `{...commit, stats: detail.stats, files: detail.files}`,
otherwise (non-ok response or thrown error) return the summary commit
unchanged. -/
def hydrateCommit (fetchDetail : String → Option GHCommitDetail) (c : GHCommit) : GHCommit :=
  match fetchDetail c.sha with
  | some d => { c with stats := some d.stats, files := some d.files }
  | none => c

/-- `allCommits = [...detailedCommits, ...remainingCommits]` (lines 533-539):
the first 10 summaries hydrated, the rest untouched. -/
def allCommitsList (fetchDetail : String → Option GHCommitDetail)
    (commitsData : List GHCommit) : List GHCommit :=
  (commitsData.take 10).map (hydrateCommit fetchDetail) ++ commitsData.drop 10

/-- A transformed commit of the response page (lines 545-563). -/
structure TimelineCommit where
  id : String
  hash : String
  message : String
  authorName : String
  authorEmail : String
  avatar : String
  username : String
  date : String
  url : String
  type : CommitType7
  category : String
  importance : Importance
  tags : List String
  stats : GHStats
  files : List GHFile
deriving DecidableEq, Repr

/-- The `commits.map` body (lines 542-566). `||` fallbacks on the author
fields follow JS truthiness (the empty string is falsy); an absent
`commit.author` renders as the literal `undefined` inside the template
string. -/
def transformCommit (c : GHCommit) : TimelineCommit :=
  let analysis := categorizeCommitR c.commit.message (c.files.getD [])
  { id := c.sha
    hash := String.mk (c.sha.data.take 7)
    message := c.commit.message
    authorName := c.commit.author.name
    authorEmail := c.commit.author.email
    avatar := match c.author with
      | some a => if a.avatar_url ≠ "" then a.avatar_url
                  else "https://github.com/" ++ a.login ++ ".png"
      | none => "https://github.com/undefined.png"
    username := match c.author with
      | some a => if a.login ≠ "" then a.login else c.commit.author.name
      | none => c.commit.author.name
    date := c.commit.author.date
    url := c.html_url
    type := analysis.type
    category := analysis.category
    importance := analysis.importance
    tags := analysis.tags
    stats := c.stats.getD { additions := 0, deletions := 0, total := 0 }
    files := c.files.getD [] }

/-- The transformed page: hydration followed by transformation. -/
def pageCommits (fetchDetail : String → Option GHCommitDetail)
    (commitsData : List GHCommit) : List TimelineCommit :=
  (allCommitsList fetchDetail commitsData).map transformCommit

/-- The `pagination` object of the response (lines 640-644). -/
structure Pagination where
  page : Nat
  perPage : Nat
  hasMore : Bool
deriving DecidableEq, Repr

/-- `pagination: { page, perPage: 30, hasMore: commits.length === 30 }`. -/
def buildPagination (pageNumber : Nat) (commits : List TimelineCommit) : Pagination :=
  { page := pageNumber, perPage := 30, hasMore := commits.length == 30 }

/-! ## The insight aggregator (lines 569-624). JS objects built by keyed
accumulation are embedded as association lists in key-insertion order. -/

/-- Keep-first de-duplication, the order-preserving behaviour of
`Array.from(new Set(xs))`. -/
def dedupFirst (l : List String) : List String :=
  l.foldl (fun acc x => if acc.contains x then acc else acc ++ [x]) []

/-- `acc[key] = (acc[key] || 0) + 1` on an association list. -/
def bumpCount (acc : List (CommitType7 × Nat)) (key : CommitType7) : List (CommitType7 × Nat) :=
  if acc.any (fun p => p.1 = key) then
    acc.map (fun p => if p.1 = key then (p.1, p.2 + 1) else p)
  else acc ++ [(key, 1)]

/-- `insights.categories`: frequency tally of commit types (lines 576-579). -/
def categoriesTally (commits : List TimelineCommit) : List (CommitType7 × Nat) :=
  commits.foldl (fun acc c => bumpCount acc c.type) []

/-- `insights.timeline` (lines 570-575). -/
structure TimelineSummary where
  totalCommits : Nat
  firstCommit : Option String
  lastCommit : Option String
  activeContributors : Nat
deriving DecidableEq, Repr

/-- `insights.timeline`: counts, boundary dates (`?.` on out-of-range index
is `none`), and distinct usernames. -/
def timelineSummary (commits : List TimelineCommit) : TimelineSummary :=
  { totalCommits := commits.length
    firstCommit := (commits.getLast?).map (fun c => c.date)
    lastCommit := (commits.head?).map (fun c => c.date)
    activeContributors := (dedupFirst (commits.map (fun c => c.username))).length }

/-- An `insights.contributors` value (lines 580-594). -/
structure ContributorEntry where
  name : String
  username : String
  avatar : String
  commits : Nat
  expertise : List String
deriving DecidableEq, Repr

/-- One step of the contributors reduce: create the entry on first sight,
then bump its count and union its tag set. -/
def bumpContributor (acc : List (String × ContributorEntry)) (c : TimelineCommit) :
    List (String × ContributorEntry) :=
  if acc.any (fun p => p.1 = c.username) then
    acc.map (fun p =>
      if p.1 = c.username then
        (p.1, { p.2 with commits := p.2.commits + 1,
                         expertise := dedupFirst (p.2.expertise ++ c.tags) })
      else p)
  else
    acc ++ [(c.username,
      { name := c.authorName, username := c.username, avatar := c.avatar,
        commits := 1, expertise := dedupFirst c.tags })]

/-- `insights.contributors` as an association list keyed by username. -/
def contributorsTally (commits : List TimelineCommit) : List (String × ContributorEntry) :=
  commits.foldl bumpContributor []

/-- `Math.round(q)` on an exact rational (the source computes the ratio in
floating point; the claims only exercise inputs where the two agree). -/
def jsRound (q : ℚ) : Int :=
  ⌊q + 1 / 2⌋

/-- One `focusAreas` element (lines 620-623). -/
structure FocusArea where
  type : CommitType7
  count : Nat
  percentage : Int
deriving DecidableEq, Repr

/-- `onboardingTips.focusAreas`: category tally sorted by count descending,
top 5, with `Math.round((count / commits.length) * 100)`. -/
def focusAreas (commits : List TimelineCommit) : List FocusArea :=
  ((List.insertionSort (fun a b : CommitType7 × Nat => b.2 ≤ a.2)
      (categoriesTally commits)).take 5).map
    (fun p => { type := p.1, count := p.2,
                percentage := jsRound (((p.2 : ℚ) / (commits.length : ℚ)) * 100) })

/-- One `expertContacts` element (lines 612-619). -/
structure ExpertContact where
  username : String
  expertise : List String
  commits : Nat
deriving DecidableEq, Repr

/-- `onboardingTips.expertContacts`: contributors sorted by commit count
descending, top 3, projected to username / leading 3 tags / count. -/
def expertContacts (commits : List TimelineCommit) : List ExpertContact :=
  ((List.insertionSort
      (fun a b : String × ContributorEntry => b.2.commits ≤ a.2.commits)
      (contributorsTally commits)).take 3).map
    (fun p => { username := p.2.username, expertise := p.2.expertise.take 3,
                commits := p.2.commits })

/-! ## The in-memory store
(`MemStorage` in src/server/storage.ts). The commit map is embedded as a
list of stored commits in insertion order (the iteration order of
`Map.values()`); `date` is the epoch-millisecond value that
`new Date(x).getTime()` yields for the stored timestamp. -/

/-- A stored commit row (the fields `getRepositoryCommits` reads, plus
identity). -/
structure StoredCommit where
  id : String
  repositoryId : String
  hash : String
  message : String
  author : String
  authorEmail : String
  date : Nat
  type : String
  insertions : Int
  deletions : Int
deriving DecidableEq, Repr

/-- `MemStorage.getRepositoryCommits` (src/server/storage.ts, lines 52-56):
filter the stored commits by `repositoryId` and sort ascending by date
(the comparator `(a, b) => aTime - bTime`). -/
def getRepositoryCommits (store : List StoredCommit) (repositoryId : String) :
    List StoredCommit :=
  List.insertionSort (fun a b : StoredCommit => a.date ≤ b.date)
    (store.filter (fun c => c.repositoryId == repositoryId))

/-! ## Ingestion control flow
(`analyzeGitRepository` in src/api/repositories/analyze.ts, lines 63-151;
same shape in src/unnamed/part_003, lines 89-194). The external effects
are embedded by injecting each fallible step's outcome: the clone, the
log extraction (whose success carries the stdout text), and persistence.
Parsing is the pure total function `parseGitLog` and cannot fail. The
`finally` block always runs `fs.rm` on the created temp directory with
errors swallowed; `cleanupInvoked` records that this release happened on
the taken exit path. -/

/-- Outcomes of the external steps of one ingestion attempt. -/
structure IngestOutcomes where
  mkdirOk : Bool
  cloneOk : Bool
  logResult : Option String
  persistOk : Bool
deriving DecidableEq, Repr

/-- The observable result of one ingestion attempt: the final repository
status written to the store, whether the temp-directory release ran, and
the parsed commits when the attempt succeeded. -/
structure IngestResult where
  finalStatus : String
  cleanupInvoked : Bool
  storedCommits : Option (List GitLogEntry)
deriving Repr

/-- `analyzeGitRepository` as a function of its external-step outcomes:
the body sets status to processing, makes the temp directory, clones,
extracts the log, parses it, replaces the stored commits, and sets status
to completed; the `catch` sets status to error on any failure, and the
`finally` releases the temp directory on every path on which it was
assigned (assignment precedes `mkdir`, so every failure point is
covered). -/
def analyzeGitRepositoryRun (outcomes : IngestOutcomes) : IngestResult :=
  if !outcomes.mkdirOk then
    { finalStatus := "error", cleanupInvoked := true, storedCommits := none }
  else if !outcomes.cloneOk then
    { finalStatus := "error", cleanupInvoked := true, storedCommits := none }
  else
    match outcomes.logResult with
    | none => { finalStatus := "error", cleanupInvoked := true, storedCommits := none }
    | some stdout =>
      if !outcomes.persistOk then
        { finalStatus := "error", cleanupInvoked := true, storedCommits := none }
      else
        { finalStatus := "completed", cleanupInvoked := true,
          storedCommits := some (parseGitLog stdout) }

/-- A concrete summary commit (no stats, no files), as returned by the
GitHub list endpoint. -/
def sampleCommitA : GHCommit :=
  { sha := "aaaa111", commit := { message := "change a", author := ⟨"An", "an@x", "2020-01-01"⟩ },
    author := none, html_url := "https://example.com/a", stats := none, files := none }

/-- A second concrete summary commit with a distinct sha. -/
def sampleCommitB : GHCommit :=
  { sha := "bbbb222", commit := { message := "change b", author := ⟨"Bn", "bn@x", "2020-01-02"⟩ },
    author := none, html_url := "https://example.com/b", stats := none, files := none }

/-- Commits ordered by ascending date: total. -/
instance : IsTotal StoredCommit (fun a b : StoredCommit => a.date ≤ b.date) :=
  ⟨fun a b => Nat.le_total a.date b.date⟩

/-- Commits ordered by ascending date: transitive. -/
instance : IsTrans StoredCommit (fun a b : StoredCommit => a.date ≤ b.date) :=
  ⟨fun _ _ _ h1 h2 => Nat.le_trans h1 h2⟩

/-! ## Helper lemmas -/

/-- `listStarts` characterised: the needle is an initial segment. -/
theorem listStarts_iff (hay needle : List Char) :
    listStarts hay needle = true ↔ ∃ r, hay = needle ++ r := by
  induction needle generalizing hay with
  | nil =>
    simp only [listStarts, List.nil_append, true_iff]
    exact ⟨hay, rfl⟩
  | cons b bs ih =>
    cases hay with
    | nil => simp [listStarts]
    | cons a as =>
      simp only [listStarts, Bool.and_eq_true, beq_iff_eq, ih, List.cons_append,
        List.cons.injEq]
      constructor
      · rintro ⟨rfl, r, rfl⟩; exact ⟨r, rfl, rfl⟩
      · rintro ⟨r, rfl, rfl⟩; exact ⟨rfl, r, rfl⟩

/-- `listHasSub` characterised: the needle occurs contiguously. -/
theorem listHasSub_iff (needle hay : List Char) :
    listHasSub needle hay = true ↔ ∃ l r, hay = l ++ needle ++ r := by
  induction hay with
  | nil =>
    simp only [listHasSub, listStarts_iff]
    constructor
    · rintro ⟨r, hr⟩
      exact ⟨[], r, by simpa using hr⟩
    · rintro ⟨l, r, hr⟩
      obtain ⟨hl, h2⟩ := List.append_eq_nil.mp hr.symm
      obtain ⟨hn, hrr⟩ := List.append_eq_nil.mp hl
      exact ⟨[], by simp [hrr]⟩
  | cons c cs ih =>
    simp only [listHasSub, Bool.or_eq_true, listStarts_iff, ih]
    constructor
    · rintro (⟨r, hr⟩ | ⟨l, r, hr⟩)
      · exact ⟨[], r, by simpa using hr⟩
      · exact ⟨c :: l, r, by simp [hr]⟩
    · rintro ⟨l, r, hr⟩
      cases l with
      | nil => exact Or.inl ⟨r, by simpa using hr⟩
      | cons x xs =>
        right
        refine ⟨xs, r, ?_⟩
        simp only [List.cons_append] at hr
        injection hr

/-- Occurrence of substrings is transitive across an intermediate string. -/
theorem includes_trans {s b a : String} (h1 : includes s b = true)
    (h2 : includes b a = true) : includes s a = true := by
  unfold includes at *
  rw [listHasSub_iff] at *
  obtain ⟨l, r, hb⟩ := h1
  obtain ⟨l2, r2, ha⟩ := h2
  exact ⟨l ++ l2, r2 ++ r, by rw [hb, ha]; simp [List.append_assoc]⟩

/-- Contrapositive form: a string that avoids `a` avoids every string
containing `a`. -/
theorem includes_false_of_super {s b a : String} (h2 : includes b a = true)
    (h1 : includes s a = false) : includes s b = false := by
  cases hsb : includes s b with
  | false => rfl
  | true => exact absurd (includes_trans hsb h2) (by simp [h1])

/-- Folding addition of a projection equals the accumulator plus the sum of
the mapped list. -/
theorem foldl_add_proj (g : FileChange → Int) (l : List FileChange) (a : Int) :
    l.foldl (fun sum f => sum + g f) a = a + (l.map g).sum := by
  induction l generalizing a with
  | nil => simp
  | cons x xs ih => simp [ih, add_assoc]

/-- Pointwise sums distribute over the list sum. -/
theorem sum_map_add_fileChange (l : List FileChange) :
    (l.map (fun f => f.insertions + f.deletions)).sum =
      (l.map (fun f => f.insertions)).sum + (l.map (fun f => f.deletions)).sum := by
  induction l with
  | nil => simp
  | cons x xs ih => simp [ih]; ring

/-- The transformed page has one entry per upstream commit. -/
theorem pageCommits_length (fetchDetail : String → Option GHCommitDetail)
    (commitsData : List GHCommit) :
    (pageCommits fetchDetail commitsData).length = commitsData.length := by
  simp [pageCommits, allCommitsList]
  omega

/-- Indexing the hydrated list: the first ten positions are hydrated, the
rest are the raw summaries. -/
theorem allCommitsList_getElem (fetchDetail : String → Option GHCommitDetail)
    (commitsData : List GHCommit) (j : Nat) :
    (allCommitsList fetchDetail commitsData)[j]? =
      if j < 10 then (commitsData[j]?).map (hydrateCommit fetchDetail)
      else commitsData[j]? := by
  unfold allCommitsList
  by_cases hj : j < 10
  · simp only [hj, if_true]
    by_cases hlen : j < commitsData.length
    · rw [List.getElem?_append_left (by simp; omega)]
      rw [List.getElem?_map, List.getElem?_take_of_lt hj]
    · rw [List.getElem?_eq_none_iff.mpr (by simp; omega),
        List.getElem?_eq_none_iff.mpr (by omega)]
      rfl
  · simp only [hj, if_false]
    have hlb : ((commitsData.take 10).map (hydrateCommit fetchDetail)).length ≤ j := by
      simp
      omega
    rw [List.getElem?_append_right hlb, List.getElem?_drop]
    simp only [List.length_map, List.length_take]
    by_cases hlen : 10 ≤ commitsData.length
    · congr 1
      omega
    · rw [List.getElem?_eq_none_iff.mpr (by omega), List.getElem?_eq_none_iff.mpr (by omega)]

/-! ## Claim theorems -/

/-- C3, counterexample: the claim maps the returned category `refactor` to
importance `low`, but the remote classifier returns importance `medium`
for the message "refactor" with no files. -/
theorem c3_refactor_importance_counterexample :
    (categorizeCommitR "refactor" []).type = CommitType7.refactor ∧
    (categorizeCommitR "refactor" []).importance = Importance.medium ∧
    (categorizeCommitR "refactor" []).importance ≠ Importance.low := by
  decide

/-- C3, amended: in the remote classifier, importance is a function of the
matched rule: initial and keyword-feature yield high; bugfix, config, test
and refactor yield medium; docs and the fallback yield low. The fallback
returns category `feature` with importance low, so for the returned
category `feature` both high and low occur. -/
theorem c3_importance_per_rule (msg : String) (files : List GHFile) :
    ((categorizeCommitR msg files).type = CommitType7.initial →
      (categorizeCommitR msg files).importance = Importance.high) ∧
    ((categorizeCommitR msg files).type = CommitType7.bugfix →
      (categorizeCommitR msg files).importance = Importance.medium) ∧
    ((categorizeCommitR msg files).type = CommitType7.docs →
      (categorizeCommitR msg files).importance = Importance.low) ∧
    ((categorizeCommitR msg files).type = CommitType7.config →
      (categorizeCommitR msg files).importance = Importance.medium) ∧
    ((categorizeCommitR msg files).type = CommitType7.test →
      (categorizeCommitR msg files).importance = Importance.medium) ∧
    ((categorizeCommitR msg files).type = CommitType7.refactor →
      (categorizeCommitR msg files).importance = Importance.medium) ∧
    ((categorizeCommitR msg files).type = CommitType7.feature →
      (categorizeCommitR msg files).importance = Importance.high ∨
        (categorizeCommitR msg files).importance = Importance.low) ∧
    ((categorizeCommitR msg files).type, (categorizeCommitR msg files).importance) ∈
      [(CommitType7.initial, Importance.high), (CommitType7.feature, Importance.high),
       (CommitType7.bugfix, Importance.medium), (CommitType7.docs, Importance.low),
       (CommitType7.config, Importance.medium), (CommitType7.test, Importance.medium),
       (CommitType7.refactor, Importance.medium), (CommitType7.feature, Importance.low)] := by
  simp only [categorizeCommitR]
  split_ifs <;> simp

/-- C3, witness: the amended theorem applied to the message "refactor". -/
theorem c3_importance_per_rule_witness :
    (categorizeCommitR "refactor" []).importance = Importance.medium :=
  (c3_importance_per_rule "refactor" []).2.2.2.2.2.1 (by decide)

/-- C4: a numstat field of `-` parses to 0, and the log line
`"-\t5\tbinary.png"` yields the file entry
`{insertions: 0, deletions: 5, filename: "binary.png"}`. -/
theorem c4_numstat_dash_is_zero :
    parseNumstatField "-" = 0 ∧
    (stepLine { commits := [], current := some ⟨"H", "m", "a", "e", "d"⟩, files := [] }
        "-\t5\tbinary.png").files =
      [{ filename := "binary.png", insertions := 0, deletions := 5 }] ∧
    parseGitLog "H|msg|a|e|d\n-\t5\tbinary.png" =
      [{ hash := "H", message := "msg", author := "a", authorEmail := "e", date := "d",
         files := [{ filename := "binary.png", insertions := 0, deletions := 5 }],
         insertions := 0, deletions := 5 }] := by
  decide

/-- C6: over the empty commit collection the insight aggregation yields
`totalCommits = 0`, the category tally is empty, and hence `focusAreas`
is empty, so the percentage expression is never evaluated. -/
theorem c6_empty_insights_safe :
    (timelineSummary []).totalCommits = 0 ∧
    categoriesTally [] = [] ∧
    focusAreas [] = [] := by
  decide

/-- C7: on every ingestion run, the temp-directory release of the `finally`
block runs, and a failure of the directory creation, the clone, the log
extraction, or the persistence step leaves the repository status at
"error"; the only other outcome is "completed". -/
theorem c7_failure_sets_error_and_cleanup (outcomes : IngestOutcomes) :
    (analyzeGitRepositoryRun outcomes).cleanupInvoked = true ∧
    ((outcomes.mkdirOk = false ∨ outcomes.cloneOk = false ∨ outcomes.logResult = none ∨
        outcomes.persistOk = false) →
      (analyzeGitRepositoryRun outcomes).finalStatus = "error") ∧
    ((analyzeGitRepositoryRun outcomes).finalStatus = "error" ∨
      (analyzeGitRepositoryRun outcomes).finalStatus = "completed") := by
  obtain ⟨mkdirOk, cloneOk, logResult, persistOk⟩ := outcomes
  cases mkdirOk <;> cases cloneOk <;> cases logResult <;> cases persistOk <;>
    simp [analyzeGitRepositoryRun]

/-- C7, witness: a run whose clone step fails ends in status "error". -/
theorem c7_failure_sets_error_and_cleanup_witness :
    (analyzeGitRepositoryRun
      { mkdirOk := true, cloneOk := false, logResult := none, persistOk := true
        }).finalStatus = "error" :=
  (c7_failure_sets_error_and_cleanup _).2.1 (Or.inr (Or.inl rfl))

/-- C10: `MemStorage.getRepositoryCommits` returns a permutation of exactly
the stored commits with the given repository id, sorted by ascending date. -/
theorem c10_getRepositoryCommits_filtered_sorted (store : List StoredCommit)
    (repositoryId : String) :
    List.Perm (getRepositoryCommits store repositoryId)
      (store.filter (fun c => c.repositoryId == repositoryId)) ∧
    List.Sorted (fun a b : StoredCommit => a.date ≤ b.date)
      (getRepositoryCommits store repositoryId) ∧
    ∀ c, c ∈ getRepositoryCommits store repositoryId ↔
      c ∈ store ∧ c.repositoryId = repositoryId := by
  refine ⟨List.perm_insertionSort _ _, List.sorted_insertionSort _ _, fun c => ?_⟩
  unfold getRepositoryCommits
  rw [List.mem_insertionSort, List.mem_filter]
  simp

/-- C1, counterexample: the message "add fix" contains "fix", matches no
architecture trigger and no initial-commit trigger, yet no classifier
returns the bugfix category: the feature rule has higher priority and
"add" matches it. -/
theorem c1_fix_counterexample :
    includes (lowerStr "add fix") "fix" = true ∧
    includes (lowerStr "add fix") "initial commit" = false ∧
    includes (lowerStr "add fix") "first commit" = false ∧
    includes (lowerStr "add fix") "migrate" = false ∧
    includes (lowerStr "add fix") "architecture" = false ∧
    includes (lowerStr "add fix") "infrastructure" = false ∧
    includes (lowerStr "add fix") "docker" = false ∧
    includes (lowerStr "add fix") "deploy" = false ∧
    (categorizeCommitR "add fix" []).type ≠ CommitType7.bugfix ∧
    categorizeCommitA "add fix" [] ≠ "bug-fix" ∧
    categorizeCommitGP "add fix" [] ≠ CommitType5.bugFix := by
  decide

/-- C1, amended: a message containing "fix" is classified bugfix / bug-fix
only when, in addition to the architecture and initial-commit triggers,
no feature trigger applies: the remote classifier returns `bugfix` when
the lowercased message avoids the feature keywords feat / feature / add
(its feature rule ignores files), and the analyze-path local classifier
returns "bug-fix" when the message moreover avoids
implement / launch / release / new, the file list avoids the architecture
substrings, and at most 8 files changed. The git-parser variant matches
bugfix on anchored patterns rather than a bare "fix" substring; when the
message also contains "fix:" and avoids that variant's extra
feature / architecture triggers, it returns its bug-fix category too. -/
theorem c1_fix_yields_bugfix (msg : String) (filesR : List GHFile)
    (files : List FileChange)
    (hfix : includes (lowerStr msg) "fix" = true)
    (hinit1 : includes (lowerStr msg) "initial commit" = false)
    (hinit2 : includes (lowerStr msg) "first commit" = false)
    (hfeat : includes (lowerStr msg) "feat" = false)
    (hfeature : includes (lowerStr msg) "feature" = false)
    (hadd : includes (lowerStr msg) "add" = false)
    (himplement : includes (lowerStr msg) "implement" = false)
    (hlaunch : includes (lowerStr msg) "launch" = false)
    (hrelease : includes (lowerStr msg) "release" = false)
    (hnew : includes (lowerStr msg) "new" = false)
    (hmigrate : includes (lowerStr msg) "migrate" = false)
    (harch : includes (lowerStr msg) "architecture" = false)
    (hinfra : includes (lowerStr msg) "infrastructure" = false)
    (hdocker : includes (lowerStr msg) "docker" = false)
    (hdeploy : includes (lowerStr msg) "deploy" = false)
    (hfilesA : files.all (fun f =>
        !(includes f.filename "docker" || includes f.filename "config" ||
          includes f.filename "migration" || includes f.filename "setup" ||
          includes f.filename "infra")) = true)
    (hcount : files.length ≤ 8) :
    (categorizeCommitR msg filesR).type = CommitType7.bugfix ∧
    categorizeCommitA msg files = "bug-fix" ∧
    (includes (lowerStr msg) "fix:" = true →
      includes (lowerStr msg) "ci/cd" = false →
      includes (lowerStr msg) "pipeline" = false →
      includes (lowerStr msg) "introduce" = false →
      startsKw (lowerStr msg) ["add", "feat", "feature"] = false →
      files.all (fun f =>
        !(includes f.filename ".yml" || includes f.filename ".yaml" ||
          includes f.filename "package.json" ||
          includes f.filename "requirements.txt")) = true →
      categorizeCommitGP msg files = CommitType5.bugFix) := by
  have hanyA : files.any (fun f =>
      includes f.filename "docker" || includes f.filename "config" ||
      includes f.filename "migration" || includes f.filename "setup" ||
      includes f.filename "infra") = false := by
    rw [List.any_eq_false]
    intro f hf
    have hA := (List.all_eq_true.mp hfilesA) f hf
    simp at hA
    obtain ⟨⟨⟨⟨ha1, ha2⟩, ha3⟩, ha4⟩, ha5⟩ := hA
    simp [ha1, ha2, ha3, ha4, ha5]
  have h15 : decide (files.length > 15) = false := decide_eq_false (by omega)
  have h8 : decide (files.length > 8) = false := decide_eq_false (by omega)
  refine ⟨?_, ?_, ?_⟩
  · simp only [categorizeCommitR]
    simp [hfix, hinit1, hinit2, hfeat, hfeature, hadd]
  · simp only [categorizeCommitA]
    simp [hfix, hfeat, hfeature, hadd, himplement, hlaunch, hrelease, hnew, hmigrate,
      harch, hinfra, hdocker, hdeploy, hanyA, h15, h8]
  · intro hfixc hcicd hpipe hintro hstarts hfilesGP
    have hanyGP : files.any (fun f =>
        includes f.filename "docker" || includes f.filename "config" ||
        includes f.filename "migration" || includes f.filename "setup" ||
        includes f.filename "infra" || includes f.filename ".yml" ||
        includes f.filename ".yaml" || includes f.filename "package.json" ||
        includes f.filename "requirements.txt") = false := by
      rw [List.any_eq_false]
      intro f hf
      have hA := (List.all_eq_true.mp hfilesA) f hf
      have hG := (List.all_eq_true.mp hfilesGP) f hf
      simp at hA hG
      obtain ⟨⟨⟨⟨ha1, ha2⟩, ha3⟩, ha4⟩, ha5⟩ := hA
      obtain ⟨⟨⟨hg1, hg2⟩, hg3⟩, hg4⟩ := hG
      simp [ha1, ha2, ha3, ha4, ha5, hg1, hg2, hg3, hg4]
    have hfeatc : includes (lowerStr msg) "feat:" = false :=
      includes_false_of_super (by decide) hfeat
    have hfeaturec : includes (lowerStr msg) "feature:" = false :=
      includes_false_of_super (by decide) hfeat
    have haddc : includes (lowerStr msg) "add:" = false :=
      includes_false_of_super (by decide) hadd
    simp only [categorizeCommitGP]
    simp [hfixc, hcicd, hpipe, hintro, hstarts, hfeatc, hfeaturec, haddc, himplement,
      hlaunch, hrelease, hmigrate, harch, hinfra, hdocker, hdeploy, hanyGP, h15, h8]

/-- C1, witness: the amended theorem applied to the message "fix: parse"
with no changed files. -/
theorem c1_fix_yields_bugfix_witness :
    (categorizeCommitR "fix: parse" []).type = CommitType7.bugfix ∧
    categorizeCommitA "fix: parse" [] = "bug-fix" ∧
    categorizeCommitGP "fix: parse" [] = CommitType5.bugFix := by
  have h := c1_fix_yields_bugfix "fix: parse" [] [] (by decide) (by decide) (by decide)
    (by decide) (by decide) (by decide) (by decide) (by decide) (by decide) (by decide)
    (by decide) (by decide) (by decide) (by decide) (by decide) (by decide) (by decide)
  exact ⟨h.1, h.2.1, h.2.2 (by decide) (by decide) (by decide) (by decide) (by decide)
    (by decide)⟩

/-- C2, counterexample: for the message "hello" with the single changed
file "dockerfile" (no initial-commit trigger), the remote 7-category
classifier does not return an architecture category: it falls through to
the default feature classification. -/
theorem c2_docker_counterexample :
    includes "dockerfile" "docker" = true ∧
    includes (lowerStr "hello") "initial commit" = false ∧
    includes (lowerStr "hello") "first commit" = false ∧
    categorizeCommitR "hello"
        [{ filename := "dockerfile", status := "modified", additions := 1, deletions := 0,
           changes := 1 }] =
      { type := CommitType7.feature, category := "Code Change", importance := Importance.low,
        tags := ["general"] } := by
  decide

/-- C2, amended: a changed-file path containing "docker" forces the
architecture category in both local 5-category classifiers, for every
message (they have no initial-commit rule); the remote 7-category
classifier has no architecture category at all — its output category is
always one of its eight fixed labels, none of which is an architecture
label, and changed-file paths play no part in any higher-priority rule
that could be forced by "docker". -/
theorem c2_docker_yields_architecture (msg : String) (files : List FileChange)
    (f : FileChange) (hmem : f ∈ files)
    (hdocker : includes f.filename "docker" = true) :
    categorizeCommitA msg files = "architecture" ∧
    categorizeCommitGP msg files = CommitType5.architecture ∧
    ∀ (msgR : String) (filesR : List GHFile),
      (categorizeCommitR msgR filesR).category ∈
        ["Project Setup", "New Feature", "Bug Fix", "Documentation", "Configuration",
         "Testing", "Code Improvement", "Code Change"] := by
  have hanyA : files.any (fun f =>
      includes f.filename "docker" || includes f.filename "config" ||
      includes f.filename "migration" || includes f.filename "setup" ||
      includes f.filename "infra") = true :=
    List.any_eq_true.mpr ⟨f, hmem, by simp [hdocker]⟩
  have hanyGP : files.any (fun f =>
      includes f.filename "docker" || includes f.filename "config" ||
      includes f.filename "migration" || includes f.filename "setup" ||
      includes f.filename "infra" || includes f.filename ".yml" ||
      includes f.filename ".yaml" || includes f.filename "package.json" ||
      includes f.filename "requirements.txt") = true :=
    List.any_eq_true.mpr ⟨f, hmem, by simp [hdocker]⟩
  refine ⟨?_, ?_, ?_⟩
  · simp only [categorizeCommitA]
    simp [hanyA]
  · simp only [categorizeCommitGP]
    simp [hanyGP]
  · intro msgR filesR
    simp only [categorizeCommitR]
    split_ifs <;> simp

/-- C2, witness: the amended theorem applied to the message "release notes"
and the single changed file "a/dockerfile". -/
theorem c2_docker_yields_architecture_witness :
    categorizeCommitA "release notes" [⟨"a/dockerfile", 2, 3⟩] = "architecture" ∧
    categorizeCommitGP "release notes" [⟨"a/dockerfile", 2, 3⟩] =
      CommitType5.architecture := by
  have h := c2_docker_yields_architecture "release notes" [⟨"a/dockerfile", 2, 3⟩]
    ⟨"a/dockerfile", 2, 3⟩ (by decide) (by decide)
  exact ⟨h.1, h.2.1⟩

/-- C5: the page built by the remote handler carries one commit per
upstream commit, and `hasMore` is true exactly when that page has the
full size of 30; in particular, fewer than 30 upstream items make
`hasMore` false. -/
theorem c5_hasMore_iff_full_page (pageNumber : Nat)
    (fetchDetail : String → Option GHCommitDetail) (commitsData : List GHCommit) :
    (pageCommits fetchDetail commitsData).length = commitsData.length ∧
    ((buildPagination pageNumber (pageCommits fetchDetail commitsData)).hasMore = true ↔
      commitsData.length = 30) := by
  refine ⟨pageCommits_length fetchDetail commitsData, ?_⟩
  simp only [buildPagination, beq_iff_eq]
  rw [pageCommits_length]

/-- C8: in the remote page pipeline, with a detail fetch that fails for one
commit of the page (and distinct shas so re-association is unambiguous),
no commit is dropped, the failed commit stays at its original position as
summary-only data with zeroed stats and no files, and every other
position of the page is unaffected by how the fetch behaved on the failed
commit's sha. -/
theorem c8_detail_failure_isolated
    (fetchDetail fetchDetail' : String → Option GHCommitDetail)
    (commitsData : List GHCommit) (i : Nat) (c : GHCommit)
    (hc : commitsData[i]? = some c)
    (hfail : fetchDetail c.sha = none)
    (hstats : c.stats = none)
    (hfiles : c.files = none)
    (hdistinct : ∀ j c', commitsData[j]? = some c' → j ≠ i → c'.sha ≠ c.sha)
    (hagree : ∀ s, s ≠ c.sha → fetchDetail' s = fetchDetail s) :
    (pageCommits fetchDetail commitsData).length = commitsData.length ∧
    ((pageCommits fetchDetail commitsData)[i]?).map
        (fun tc => (tc.id, tc.stats, tc.files)) =
      some (c.sha, ({ additions := 0, deletions := 0, total := 0 } : GHStats),
        ([] : List GHFile)) ∧
    ∀ j, j ≠ i → (pageCommits fetchDetail commitsData)[j]? =
      (pageCommits fetchDetail' commitsData)[j]? := by
  have hhyd : hydrateCommit fetchDetail c = c := by
    unfold hydrateCommit
    rw [hfail]
  refine ⟨pageCommits_length _ _, ?_, ?_⟩
  · unfold pageCommits
    rw [List.getElem?_map, allCommitsList_getElem]
    by_cases hi : i < 10
    · simp only [hi, if_true, hc, Option.map_some']
      rw [hhyd]
      simp [transformCommit, hstats, hfiles]
    · simp only [hi, if_false, hc]
      simp [transformCommit, hstats, hfiles]
  · intro j hj
    unfold pageCommits
    rw [List.getElem?_map, List.getElem?_map, allCommitsList_getElem, allCommitsList_getElem]
    by_cases hjlt : j < 10
    · simp only [hjlt, if_true]
      cases hcj : commitsData[j]? with
      | none => rfl
      | some cj =>
        have hne : cj.sha ≠ c.sha := hdistinct j cj hcj hj
        have heq : hydrateCommit fetchDetail' cj = hydrateCommit fetchDetail cj := by
          unfold hydrateCommit
          rw [hagree cj.sha hne]
        simp [heq]
    · simp [hjlt]

/-- C8, witness: a two-commit page where every detail fetch fails keeps the
first commit in place with zeroed stats. -/
theorem c8_detail_failure_isolated_witness :
    ((pageCommits (fun _ => none) [sampleCommitA, sampleCommitB])[0]?).map
        (fun tc => (tc.id, tc.stats, tc.files)) =
      some (sampleCommitA.sha, ({ additions := 0, deletions := 0, total := 0 } : GHStats),
        ([] : List GHFile)) := by
  have h := c8_detail_failure_isolated (fun _ => none) (fun _ => none)
    [sampleCommitA, sampleCommitB] 0 sampleCommitA rfl rfl rfl rfl
    (by intro j c' hj hne
        rcases j with _ | _ | k
        · exact absurd rfl hne
        · simp at hj
          rw [← hj]
          decide
        · simp at hj)
    (fun s _ => rfl)
  exact h.2.1

/-- Every commit flushed into the output list satisfies the aggregate-sum
invariant, provided all previously flushed commits do. -/
theorem flushCurrent_sums (st : ParseState)
    (h : ∀ c ∈ st.commits,
        c.insertions = (c.files.map (fun f => f.insertions)).sum ∧
        c.deletions = (c.files.map (fun f => f.deletions)).sum) :
    ∀ c ∈ flushCurrent st,
        c.insertions = (c.files.map (fun f => f.insertions)).sum ∧
        c.deletions = (c.files.map (fun f => f.deletions)).sum := by
  unfold flushCurrent
  rcases st with ⟨commits, current, files⟩
  cases current with
  | none => exact h
  | some hd =>
    dsimp only
    split
    · exact h
    · intro c hc
      rcases List.mem_append.mp hc with hmem | hmem
      · exact h c hmem
      · rcases List.mem_singleton.mp hmem with rfl
        constructor
        · simpa using foldl_add_proj (fun f => f.insertions) files 0
        · simpa using foldl_add_proj (fun f => f.deletions) files 0

/-- The loop body preserves the aggregate-sum invariant. -/
theorem stepLine_sums (st : ParseState) (line : String)
    (h : ∀ c ∈ st.commits,
        c.insertions = (c.files.map (fun f => f.insertions)).sum ∧
        c.deletions = (c.files.map (fun f => f.deletions)).sum) :
    ∀ c ∈ (stepLine st line).commits,
        c.insertions = (c.files.map (fun f => f.insertions)).sum ∧
        c.deletions = (c.files.map (fun f => f.deletions)).sum := by
  unfold stepLine
  split
  · exact flushCurrent_sums st h
  · split
    · dsimp only
      split
      · exact h
      · exact h
    · exact h

/-- The whole parsing loop preserves the aggregate-sum invariant. -/
theorem foldl_stepLine_sums (lines : List String) (st : ParseState)
    (h : ∀ c ∈ st.commits,
        c.insertions = (c.files.map (fun f => f.insertions)).sum ∧
        c.deletions = (c.files.map (fun f => f.deletions)).sum) :
    ∀ c ∈ (lines.foldl stepLine st).commits,
        c.insertions = (c.files.map (fun f => f.insertions)).sum ∧
        c.deletions = (c.files.map (fun f => f.deletions)).sum := by
  induction lines generalizing st with
  | nil => exact h
  | cons l ls ih => exact ih (stepLine st l) (stepLine_sums st l h)

/-- C9: every commit record produced by the local git-log parser carries
aggregate insertions and deletions equal to the sums over its file
entries, so the total line-change count derived from the files equals
additions plus deletions. -/
theorem c9_parser_aggregates_are_sums (stdout : String) (c : GitLogEntry)
    (hc : c ∈ parseGitLog stdout) :
    c.insertions = (c.files.map (fun f => f.insertions)).sum ∧
    c.deletions = (c.files.map (fun f => f.deletions)).sum ∧
    (c.files.map (fun f => f.insertions + f.deletions)).sum =
      c.insertions + c.deletions := by
  unfold parseGitLog at hc
  have h := flushCurrent_sums _
    (foldl_stepLine_sums (jsSplit stdout '\n') { commits := [], current := none, files := [] }
      (by simp)) c hc
  refine ⟨h.1, h.2, ?_⟩
  rw [sum_map_add_fileChange, h.1, h.2]

/-- C9, witness: the invariant theorem applied to a concrete two-file log. -/
theorem c9_parser_aggregates_are_sums_witness :
    (({ hash := "H", message := "m", author := "a", authorEmail := "e", date := "d",
        files := [⟨"x.ts", 3, 4⟩, ⟨"y.png", 10, 0⟩], insertions := 13,
        deletions := 4 } : GitLogEntry)).insertions =
      ((([⟨"x.ts", 3, 4⟩, ⟨"y.png", 10, 0⟩] : List FileChange)).map
        (fun f => f.insertions)).sum :=
  (c9_parser_aggregates_are_sums "H|m|a|e|d\n3\t4\tx.ts\n10\t-\ty.png"
    ⟨"H", "m", "a", "e", "d", [⟨"x.ts", 3, 4⟩, ⟨"y.png", 10, 0⟩], 13, 4⟩ (by decide)).1

end CodebaseChronicle
